import Mathlib

/-!
Shallow embedding of the triangle-tile SVG generator (`src/main.rs`).

Modelling conventions:
* Rust `usize` values are `Nat`; pixel bytes (`u8`) are `Nat` (claims never
  exercise byte overflow).
* Rust `f32` values are modelled as elements of an arbitrary field `α`
  (instantiated at `ℚ` or `ℝ` in the theorems); `f32` rounding error is
  abstracted away, so `(3.0f32).sqrt()` becomes the exact `Real.sqrt 3`
  where a numeric value is needed, and the truncating cast
  `(k as f32 * sqrt_3) as usize` is modelled by the exact value
  `⌊√(3k²)⌋ = ⌊k * √3⌋` (see `floor_mul_sqrt3`).
* Operations that can panic in Rust (integer division by zero, slice
  indexing out of bounds) return `none` / an error in the model; `Nat`
  subtraction `image_height - 1` keeps Lean's truncated semantics, and all
  claims are settled under the positivity hypotheses they state.
-/

namespace TriTile

/-- Path operations of the `svg` crate's `Data` builder, as used by
`triangle_at` in `src/main.rs`: absolute move, relative line, close. -/
inductive PathOp (α : Type) where
  | moveTo (x y : α)
  | lineBy (dx dy : α)
  | close
deriving DecidableEq

/-- Embedding of `triangle_at` (src/main.rs lines 96-115), path data only:
the fill/stroke attributes carry the color, handled by `encode_color`. -/
def triangle_at {α : Type} [Field α] (x y half_width height : α)
    (points_up : Bool) : List (PathOp α) :=
  if points_up then
    [PathOp.moveTo x y, PathOp.lineBy (-half_width) height,
     PathOp.lineBy (half_width * 2) 0, PathOp.close]
  else
    [PathOp.moveTo x (y + height), PathOp.lineBy (-half_width) (-height),
     PathOp.lineBy (half_width * 2) 0, PathOp.close]

/-- Absolute points visited by a path: `moveTo` jumps to its point,
`lineBy` displaces the current point, `close` adds no new point. -/
def path_points {α : Type} [Field α] : List (PathOp α) → α × α → List (α × α)
  | [], _ => []
  | PathOp.moveTo px py :: rest, _ => (px, py) :: path_points rest (px, py)
  | PathOp.lineBy dx dy :: rest, (cx, cy) =>
      (cx + dx, cy + dy) :: path_points rest (cx + dx, cy + dy)
  | PathOp.close :: rest, p => path_points rest p

/-- Absolute vertices of a path, starting from the origin. -/
def abs_vertices {α : Type} [Field α] (ops : List (PathOp α)) : List (α × α) :=
  path_points ops (0, 0)

/-- Uppercase hex digit for `n < 16`, as produced by Rust's
`format \x7b:02X\x7d`. -/
def hex_digit (n : Nat) : Char :=
  if n < 10 then Char.ofNat (48 + n) else Char.ofNat (55 + n)

/-- Two-digit uppercase hex rendering of one byte. -/
def byte_hex (b : Nat) : List Char :=
  [hex_digit (b / 16), hex_digit (b % 16)]

/-- Embedding of `encode_color` (src/main.rs lines 117-119). -/
def encode_color (r g b : Nat) : String :=
  String.mk ('#' :: (byte_hex r ++ byte_hex g ++ byte_hex b))

/-- Embedding of `let points_up = (row & 1 == 0) != (col & 1 == 0)`
(src/main.rs line 80). -/
def cell_points_up (row col : Nat) : Bool :=
  ((row &&& 1) == 0) != ((col &&& 1) == 0)

/-- Embedding of `((col * image_width) / n_horiz_tris).min(image_width-1)`
(src/main.rs line 70).  Rust panics when `n_horiz_tris = 0`; that panic is
modelled in `sample_cell`, not here. -/
def walker_img_x (image_width n_horiz_tris col : Nat) : Nat :=
  min ((col * image_width) / n_horiz_tris) (image_width - 1)

/-- Embedding of `((row * image_height) / n_vertical_tris).min(image_height-1)`
(src/main.rs line 69). -/
def walker_img_y (image_height n_vertical_tris row : Nat) : Nat :=
  min ((row * image_height) / n_vertical_tris) (image_height - 1)

/-- The three bytes read for a cell (src/main.rs lines 71-78), with `getD`
defaulting to 0; meaningful when the index is in bounds, which
`sample_cell_eq` establishes. -/
def cell_rgb (image_width image_height n_vertical_tris n_horiz_tris : Nat)
    (image_data : List Nat) (row col : Nat) : Nat × Nat × Nat :=
  let subpixel_idx := (walker_img_x image_width n_horiz_tris col +
    walker_img_y image_height n_vertical_tris row * image_width) * 3
  (image_data.getD subpixel_idx 0, image_data.getD (subpixel_idx + 1) 0,
    image_data.getD (subpixel_idx + 2) 0)

/-- One loop body iteration of the grid walk (src/main.rs lines 69-78):
computes the sampled RGB triple, or `none` where Rust would panic
(division by zero when a triangle count is 0, or an out-of-bounds read). -/
def sample_cell (image_width image_height n_vertical_tris n_horiz_tris : Nat)
    (image_data : List Nat) (row col : Nat) : Option (Nat × Nat × Nat) :=
  if n_vertical_tris = 0 ∨ n_horiz_tris = 0 then none
  else
    let img_y := walker_img_y image_height n_vertical_tris row
    let img_x := walker_img_x image_width n_horiz_tris col
    let img_idx := img_x + img_y * image_width
    let subpixel_idx := img_idx * 3
    match image_data.get? subpixel_idx, image_data.get? (subpixel_idx + 1),
        image_data.get? (subpixel_idx + 2) with
    | some r, some g, some b => some (r, g, b)
    | _, _, _ => none

/-- One triangle appended to the document.  The source appends the rendered
path `triangle_at x y half height points_up color` directly; the record
keeps the arguments (`row`/`col` are the loop counters, recorded so that
ordering claims can be stated), from which the path and fill are
`triangle_at r.x r.y half height r.points_up` and `encode_color` of `r.rgb`. -/
structure TriangleRecord (α : Type) where
  row : Nat
  col : Nat
  x : α
  y : α
  points_up : Bool
  rgb : Nat × Nat × Nat
deriving DecidableEq

/-- Inner column loop `for col in 0..=n_horiz_tris` (src/main.rs lines
68-87), with the remaining iteration count as fuel and the accumulated
`x` coordinate carried exactly as in the source (`x += half_triangle_width`). -/
def walk_cols {α : Type} [Field α]
    (image_width image_height n_vertical_tris n_horiz_tris : Nat)
    (image_data : List Nat) (half_triangle_width : α) (row : Nat) (y : α) :
    Nat → Nat → α → Option (List (TriangleRecord α))
  | 0, _, _ => some []
  | fuel + 1, col, x =>
    match sample_cell image_width image_height n_vertical_tris n_horiz_tris
        image_data row col with
    | none => none
    | some rgb =>
      match walk_cols image_width image_height n_vertical_tris n_horiz_tris
          image_data half_triangle_width row y fuel (col + 1)
          (x + half_triangle_width) with
      | none => none
      | some rest =>
        some (⟨row, col, x, y, cell_points_up row col, rgb⟩ :: rest)

/-- Outer row loop `for row in 0..n_vertical_tris` (src/main.rs lines
66-89), with `y += triangle_height` per row. -/
def walk_rows {α : Type} [Field α]
    (image_width image_height n_vertical_tris n_horiz_tris : Nat)
    (image_data : List Nat) (half_triangle_width triangle_height : α) :
    Nat → Nat → α → Option (List (TriangleRecord α))
  | 0, _, _ => some []
  | fuel + 1, row, y =>
    match walk_cols image_width image_height n_vertical_tris n_horiz_tris
        image_data half_triangle_width row y (n_horiz_tris + 1) 0 0 with
    | none => none
    | some rowRecs =>
      match walk_rows image_width image_height n_vertical_tris n_horiz_tris
          image_data half_triangle_width triangle_height fuel (row + 1)
          (y + triangle_height) with
      | none => none
      | some rest => some (rowRecs ++ rest)

/-- The full grid walk of `main` (src/main.rs lines 65-89). -/
def mosaic_walk {α : Type} [Field α]
    (image_width image_height n_vertical_tris n_horiz_tris : Nat)
    (image_data : List Nat) (half_triangle_width triangle_height : α) :
    Option (List (TriangleRecord α)) :=
  walk_rows image_width image_height n_vertical_tris n_horiz_tris image_data
    half_triangle_width triangle_height n_vertical_tris 0 0

/-- Largest `m ≤ bound` with `m * m ≤ n`, by downward scan; a structurally
recursive integer square root usable with `decide`. -/
def nat_sqrt_below : Nat → Nat → Nat
  | 0, _ => 0
  | bound + 1, n =>
    if (bound + 1) * (bound + 1) ≤ n then bound + 1 else nat_sqrt_below bound n

/-- Exact value of `⌊k * √3⌋` for a natural `k`, computed as
`⌊√(3k²)⌋` (the scan bound `2k` suffices since `√3 < 2`); this models the
truncating cast `(k as f32 * sqrt_3) as usize` with the `f32` constant
`sqrt_3` replaced by the exact `√3` (see `floor_mul_sqrt3_eq_floor`). -/
def floor_mul_sqrt3 (k : Nat) : Nat := nat_sqrt_below (2 * k) (3 * k * k)

/-- Embedding of the horizontal triangle count (src/main.rs lines 48-49):
integer division first, then multiplication by `√3`, then truncation. -/
def n_horiz_tris (image_width image_height n_vertical_tris : Nat) : Nat :=
  floor_mul_sqrt3 ((image_width * n_vertical_tris) / image_height)

/-- The explicit list of records the walk produces on success: row-major,
`row` in `[0, n_vertical)`, `col` in `[0, n_horiz]`, origin
`(col * half, row * height)`. -/
def grid_records {α : Type} [Field α]
    (image_width image_height n_vertical_tris n_horiz_tris : Nat)
    (image_data : List Nat) (half_triangle_width triangle_height : α) :
    List (TriangleRecord α) :=
  (List.range n_vertical_tris).flatMap fun row =>
    (List.range (n_horiz_tris + 1)).map fun col =>
      ⟨row, col, (col : α) * half_triangle_width, (row : α) * triangle_height,
        cell_points_up row col,
        cell_rgb image_width image_height n_vertical_tris n_horiz_tris
          image_data row col⟩

/-- Failure modes of the modelled program, matching the spec's error kinds
where they are decided by code under `src/` (`FileOpenFailure`,
`UnsupportedBitDepth` and `UnsupportedColorEncoding` are collapsed into
`loadFailure` here; `load_png_rgb` below refines the latter two).
`walkFailure` stands for a Rust panic inside the grid walk. -/
inductive MainError where
  | missingArgument
  | invalidNumericArgument
  | loadFailure
  | emptyImage
  | walkFailure
deriving DecidableEq

/-- A document: declared canvas (viewBox width and height, src/main.rs
lines 55-63) plus the ordered triangle records. -/
structure MosaicDocument (α : Type) where
  canvas_width : α
  canvas_height : α
  records : List (TriangleRecord α)

/-- Embedding of `main` after image load (src/main.rs lines 38-89):
derive the height from the buffer length, reject an empty buffer, compute
grid parameters, walk the grid, and assemble the document.  `sqrt_3`
abstracts the `f32` constant `(3.0f32).sqrt()` used for
`half_triangle_width`; the truncating `n_horiz_tris` computation uses the
exact `⌊k√3⌋` (see `floor_mul_sqrt3`). -/
def run_pipeline {α : Type} [Field α] (image_width : Nat)
    (image_data : List Nat) (n_vertical_tris : Nat)
    (triangle_height sqrt_3 : α) : Except MainError (MosaicDocument α) :=
  let image_height := image_data.length / (image_width * 3)
  if image_data.isEmpty then Except.error MainError.emptyImage
  else
    let nh := n_horiz_tris image_width image_height n_vertical_tris
    let half_triangle_width := triangle_height / sqrt_3
    match mosaic_walk image_width image_height n_vertical_tris nh image_data
        half_triangle_width triangle_height with
    | none => Except.error MainError.walkFailure
    | some recs =>
      Except.ok ⟨(nh : α) * half_triangle_width,
        (n_vertical_tris : α) * triangle_height, recs⟩

/-- Digit run to a natural number, most significant first. -/
def digits_to_nat (cs : List Char) : Nat :=
  cs.foldl (fun acc c => acc * 10 + (c.toNat - 48)) 0

/-- Model of Rust's `str::parse::<usize>`: an optional leading `+`, then
one or more ASCII digits.  Overflow of the 64-bit range is abstracted
away (no claim exercises it). -/
def parse_usize (s : String) : Option Nat :=
  let cs := s.toList
  let ds := match cs with
    | '+' :: rest => rest
    | _ => cs
  if !ds.isEmpty && ds.all Char.isDigit then some (digits_to_nat ds)
  else none

/-- Model of Rust's `str::parse::<f32>` on plain decimal numerals: an
optional sign, then `digits`, `digits.digits`, `digits.` or `.digits`.
The exponent, `inf` and `NaN` forms are omitted (no claim uses them) and
the value is kept as an exact rational, abstracting `f32` rounding. -/
def parse_decimal (s : String) : Option ℚ :=
  let cs := s.toList
  let sign : ℚ := match cs with
    | '-' :: _ => -1
    | _ => 1
  let ds := match cs with
    | '-' :: rest => rest
    | '+' :: rest => rest
    | _ => cs
  let intPart := ds.takeWhile Char.isDigit
  let rest := ds.dropWhile Char.isDigit
  match rest with
  | [] =>
    if intPart.isEmpty then none
    else some (sign * (digits_to_nat intPart : ℚ))
  | '.' :: fracPart =>
    if fracPart.all Char.isDigit && !(intPart.isEmpty && fracPart.isEmpty)
    then some (sign * ((digits_to_nat intPart : ℚ) +
      (digits_to_nat fracPart : ℚ) / (10 ^ fracPart.length)))
    else none
  | _ => none

/-- Parsed command-line configuration (src/main.rs lines 18-34). -/
structure CliConfig where
  image_path : String
  n_vertical_tris : Nat
  triangle_height : ℚ
  svg_path : String

/-- Embedding of the argument-parsing prologue of `main` (src/main.rs
lines 18-34): the image path is required, the triangle counts default to
"30", the height to "0.1", the output path to "out.svg"; a failed numeric
parse is the spec's `InvalidNumericArgument`. -/
def parse_args (args : List String) : Except MainError CliConfig :=
  match args with
  | [] => Except.error MainError.missingArgument
  | image_path :: rest =>
    let n_vert_str := rest.getD 0 ("30")
    let height_str := rest.getD 1 ("0.1")
    let svg_path := rest.getD 2 ("out.svg")
    match parse_usize n_vert_str with
    | none => Except.error MainError.invalidNumericArgument
    | some nv =>
      match parse_decimal height_str with
      | none => Except.error MainError.invalidNumericArgument
      | some th => Except.ok ⟨image_path, nv, th, svg_path⟩

/-- Embedding of `main`'s stage order: arguments are parsed first; only
then is the image file touched, whose outcome is the abstract
`file_result` (a `(width, rgb data)` pair on success, mirroring
`load_png_from_path`); then the pipeline runs.  That the result ignores
`file_result` whenever parsing fails is exactly the claim that rejection
happens before any file I/O. -/
def main_model {α : Type} [Field α] (args : List String)
    (file_result : Except MainError (Nat × List Nat)) (sqrt_3 : α) :
    Except MainError (MosaicDocument α) :=
  match parse_args args with
  | Except.error e => Except.error e
  | Except.ok cfg =>
    match file_result with
    | Except.error e => Except.error e
    | Except.ok (image_width, image_data) =>
      run_pipeline image_width image_data cfg.n_vertical_tris
        ((cfg.triangle_height : ℚ) : α) sqrt_3

/-- PNG bit depths of the `png` crate. -/
inductive BitDepth where
  | one | two | four | eight | sixteen
deriving DecidableEq

/-- PNG color types of the `png` crate. -/
inductive ColorType where
  | grayscale | rgb | indexed | grayscaleAlpha | rgba
deriving DecidableEq

/-- Decode errors of `load_png_rgb`. -/
inductive PngError where
  | unsupportedBitDepth
  | unsupportedColorType
deriving DecidableEq

/-- Rust's `chunks_exact(k)`: the list of full `k`-chunks, any shorter
remainder dropped. -/
def chunks_exact (k : Nat) (l : List Nat) : List (List Nat) :=
  if h : 0 < k ∧ k ≤ l.length then
    l.take k :: chunks_exact k (l.drop k)
  else []
termination_by l.length
decreasing_by
  simp only [List.length_drop]
  omega

/-- Embedding of `load_png_rgb` (src/main.rs lines 128-156) after the
`png` crate has decoded the frame: given the frame's bit depth, color
type and raw bytes, normalize to 24-bit RGB or fail.  The width
passthrough and the I/O wrapper `load_png_from_path` are omitted. -/
def load_png_rgb (bit_depth : BitDepth) (color_type : ColorType)
    (buf : List Nat) : Except PngError (List Nat) :=
  if bit_depth ≠ BitDepth.eight then Except.error PngError.unsupportedBitDepth
  else
    match color_type with
    | ColorType.rgb => Except.ok buf
    | ColorType.rgba =>
      Except.ok ((chunks_exact 4 buf).flatMap fun px =>
        [px.getD 0 0, px.getD 1 0, px.getD 2 0])
    | ColorType.grayscale =>
      Except.ok (buf.flatMap fun px => [px, px, px])
    | ColorType.grayscaleAlpha =>
      Except.ok ((chunks_exact 2 buf).flatMap fun px =>
        [px.getD 0 0, px.getD 0 0, px.getD 0 0])
    | ColorType.indexed => Except.error PngError.unsupportedColorType

/-- Byte encoding of a list of RGBA pixels, as the `png` crate hands an
8-bit RGBA frame to `load_png_rgb`. -/
def rgba_bytes (pixels : List (Nat × Nat × Nat × Nat)) : List Nat :=
  pixels.flatMap fun px => [px.1, px.2.1, px.2.2.1, px.2.2.2]

/-- Byte encoding of a list of gray+alpha pixels. -/
def gray_alpha_bytes (pixels : List (Nat × Nat)) : List Nat :=
  pixels.flatMap fun px => [px.1, px.2]

/-- The 2×2 test image of the end-to-end scenario: red, green, blue,
white pixels in row-major order. -/
def test_image_2x2 : List Nat :=
  [255, 0, 0, 0, 255, 0, 0, 0, 255, 255, 255, 255]

/-! ## Helper lemmas -/

theorem nat_sqrt_below_sq_le (bound n : Nat) :
    nat_sqrt_below bound n * nat_sqrt_below bound n ≤ n := by
  induction bound with
  | zero => simp [nat_sqrt_below]
  | succ b ih =>
    rw [nat_sqrt_below]
    split
    · assumption
    · exact ih

theorem lt_nat_sqrt_below_succ_sq (bound n : Nat)
    (h : n < (bound + 1) * (bound + 1)) :
    n < (nat_sqrt_below bound n + 1) * (nat_sqrt_below bound n + 1) := by
  induction bound with
  | zero => simpa [nat_sqrt_below] using h
  | succ b ih =>
    rw [nat_sqrt_below]
    split
    · exact h
    · exact ih (by omega)

theorem floor_mul_sqrt3_sq_le (k : Nat) :
    floor_mul_sqrt3 k * floor_mul_sqrt3 k ≤ 3 * k * k :=
  nat_sqrt_below_sq_le _ _

theorem lt_floor_mul_sqrt3_succ_sq (k : Nat) :
    3 * k * k < (floor_mul_sqrt3 k + 1) * (floor_mul_sqrt3 k + 1) := by
  refine lt_nat_sqrt_below_succ_sq _ _ ?_
  nlinarith [Nat.zero_le k]

/-- The structural model agrees with the real-number specification:
`floor_mul_sqrt3 k = ⌊k · √3⌋`. -/
theorem floor_mul_sqrt3_eq_floor (k : Nat) :
    floor_mul_sqrt3 k = Nat.floor ((k : ℝ) * Real.sqrt 3) := by
  have h30 : (0 : ℝ) ≤ 3 := by norm_num
  have hs : Real.sqrt ((3 : ℝ) * (k * k)) = (k : ℝ) * Real.sqrt 3 := by
    rw [Real.sqrt_mul h30, Real.sqrt_mul_self (by positivity)]
    ring
  have hle : floor_mul_sqrt3 k * floor_mul_sqrt3 k ≤ 3 * k * k :=
    floor_mul_sqrt3_sq_le k
  have hlt : 3 * k * k < (floor_mul_sqrt3 k + 1) * (floor_mul_sqrt3 k + 1) :=
    lt_floor_mul_sqrt3_succ_sq k
  symm
  rw [Nat.floor_eq_iff (by positivity)]
  constructor
  · have h1 : ((floor_mul_sqrt3 k : ℝ)) ≤ Real.sqrt ((3 : ℝ) * (k * k)) := by
      rw [show ((3 : ℝ) * (k * k)) = ((3 * k * k : Nat) : ℝ) by push_cast; ring]
      rw [Real.le_sqrt (by positivity) (by positivity)]
      have hle' : ((floor_mul_sqrt3 k * floor_mul_sqrt3 k : Nat) : ℝ) ≤
          ((3 * k * k : Nat) : ℝ) := by exact_mod_cast hle
      calc ((floor_mul_sqrt3 k : ℝ)) ^ 2
          = ((floor_mul_sqrt3 k * floor_mul_sqrt3 k : Nat) : ℝ) := by
            push_cast; ring
        _ ≤ ((3 * k * k : Nat) : ℝ) := hle'
    rwa [hs] at h1
  · have h2 : Real.sqrt ((3 : ℝ) * (k * k)) < (floor_mul_sqrt3 k : ℝ) + 1 := by
      have hlt' : ((3 * k * k : Nat) : ℝ) <
          (((floor_mul_sqrt3 k + 1) * (floor_mul_sqrt3 k + 1) : Nat) : ℝ) := by
        exact_mod_cast hlt
      push_cast at hlt'
      have hcast : ((3 : ℝ) * (k * k)) < ((floor_mul_sqrt3 k : ℝ) + 1) *
          ((floor_mul_sqrt3 k : ℝ) + 1) := by linarith [hlt']
      have := Real.sqrt_lt_sqrt (by positivity) hcast
      rwa [show ((floor_mul_sqrt3 k : ℝ) + 1) * ((floor_mul_sqrt3 k : ℝ) + 1) =
        ((floor_mul_sqrt3 k : ℝ) + 1) ^ 2 by ring, Real.sqrt_sq (by positivity)]
        at this
    rwa [hs] at h2

theorem get?_eq_some_getD (l : List Nat) (n : Nat) (hn : n < l.length) :
    l.get? n = some (l.getD n 0) := by
  rw [List.getD_eq_get?]
  cases h : l.get? n with
  | none => exact absurd (List.get?_eq_none.mp h) (by omega)
  | some a => rfl

theorem idx_bound (image_width image_height n_vertical_tris n_horiz_tris
    row col : Nat) (hw : 1 ≤ image_width) (hh : 1 ≤ image_height) :
    (walker_img_x image_width n_horiz_tris col +
      walker_img_y image_height n_vertical_tris row * image_width) * 3 + 2 <
      image_width * image_height * 3 := by
  have hx : walker_img_x image_width n_horiz_tris col ≤ image_width - 1 :=
    Nat.min_le_right _ _
  have hy : walker_img_y image_height n_vertical_tris row ≤ image_height - 1 :=
    Nat.min_le_right _ _
  have h1 : (walker_img_y image_height n_vertical_tris row + 1) * image_width ≤
      image_height * image_width :=
    Nat.mul_le_mul_right image_width (by omega)
  have h2 : image_height * image_width = image_width * image_height :=
    Nat.mul_comm _ _
  rw [Nat.succ_mul, h2] at h1
  omega

theorem flatMap_congr_left {A B : Type} {l : List A} {f g : A → List B}
    (hfg : ∀ a ∈ l, f a = g a) : l.flatMap f = l.flatMap g := by
  rw [List.flatMap_def, List.flatMap_def, List.map_congr_left hfg]

theorem sample_cell_eq (image_width image_height n_vertical_tris
    n_horiz_tris : Nat) (image_data : List Nat) (row col : Nat)
    (hw : 1 ≤ image_width) (hh : 1 ≤ image_height) (hnv : 1 ≤ n_vertical_tris)
    (hnh : 1 ≤ n_horiz_tris)
    (hlen : image_width * image_height * 3 ≤ image_data.length) :
    sample_cell image_width image_height n_vertical_tris n_horiz_tris
      image_data row col =
      some (cell_rgb image_width image_height n_vertical_tris n_horiz_tris
        image_data row col) := by
  have hidx := idx_bound image_width image_height n_vertical_tris n_horiz_tris
    row col hw hh
  have hb := lt_of_lt_of_le hidx hlen
  simp only [sample_cell, cell_rgb]
  rw [if_neg (by omega)]
  rw [get?_eq_some_getD _ _ (by omega), get?_eq_some_getD _ _ (by omega),
    get?_eq_some_getD _ _ (by omega)]

theorem walk_cols_eq {α : Type} [Field α] (image_width image_height
    n_vertical_tris n_horiz_tris : Nat) (image_data : List Nat)
    (half_triangle_width : α) (row : Nat) (y : α)
    (hw : 1 ≤ image_width) (hh : 1 ≤ image_height) (hnv : 1 ≤ n_vertical_tris)
    (hnh : 1 ≤ n_horiz_tris)
    (hlen : image_width * image_height * 3 ≤ image_data.length) :
    ∀ (fuel col : Nat) (x : α),
      walk_cols image_width image_height n_vertical_tris n_horiz_tris
        image_data half_triangle_width row y fuel col x =
      some ((List.range fuel).map fun i =>
        ⟨row, col + i, x + (i : α) * half_triangle_width, y,
          cell_points_up row (col + i),
          cell_rgb image_width image_height n_vertical_tris n_horiz_tris
            image_data row (col + i)⟩) := by
  intro fuel
  induction fuel with
  | zero => intro col x; simp [walk_cols]
  | succ f ih =>
    intro col x
    rw [walk_cols,
      sample_cell_eq image_width image_height n_vertical_tris n_horiz_tris
        image_data row col hw hh hnv hnh hlen,
      ih (col + 1) (x + half_triangle_width),
      show List.range (f + 1) = 0 :: List.map Nat.succ (List.range f) from
        List.range_succ_eq_map f]
    simp only [List.map_cons, List.map_map]
    congr 1
    congr 1
    · simp
    · refine List.map_congr_left fun i _ => ?_
      have hc : col + 1 + i = col + (i + 1) := by omega
      simp only [Function.comp, TriangleRecord.mk.injEq, hc, Nat.succ_eq_add_one,
        true_and, and_true, eq_self_iff_true]
      push_cast
      ring

theorem walk_rows_eq {α : Type} [Field α] (image_width image_height
    n_vertical_tris n_horiz_tris : Nat) (image_data : List Nat)
    (half_triangle_width triangle_height : α)
    (hw : 1 ≤ image_width) (hh : 1 ≤ image_height) (hnv : 1 ≤ n_vertical_tris)
    (hnh : 1 ≤ n_horiz_tris)
    (hlen : image_width * image_height * 3 ≤ image_data.length) :
    ∀ (fuel row : Nat) (y : α),
      walk_rows image_width image_height n_vertical_tris n_horiz_tris
        image_data half_triangle_width triangle_height fuel row y =
      some ((List.range fuel).flatMap fun j =>
        (List.range (n_horiz_tris + 1)).map fun col =>
          ⟨row + j, col, (col : α) * half_triangle_width,
            y + (j : α) * triangle_height, cell_points_up (row + j) col,
            cell_rgb image_width image_height n_vertical_tris n_horiz_tris
              image_data (row + j) col⟩) := by
  intro fuel
  induction fuel with
  | zero => intro row y; simp [walk_rows]
  | succ f ih =>
    intro row y
    rw [walk_rows,
      walk_cols_eq image_width image_height n_vertical_tris n_horiz_tris
        image_data half_triangle_width row y hw hh hnv hnh hlen,
      ih (row + 1) (y + triangle_height),
      show List.range (f + 1) = 0 :: List.map Nat.succ (List.range f) from
        List.range_succ_eq_map f]
    simp only [List.flatMap_cons, List.flatMap_map]
    congr 1
    congr 1
    · refine List.map_congr_left fun i _ => ?_
      simp
    · refine flatMap_congr_left fun j _ => ?_
      refine List.map_congr_left fun col _ => ?_
      have hr : row + 1 + j = row + (j + 1) := by omega
      simp only [Function.comp, TriangleRecord.mk.injEq, hr,
        Nat.succ_eq_add_one, true_and, and_true, eq_self_iff_true]
      push_cast
      ring

/-- On a valid pixel buffer with at least one row and one column of
triangles, the walk succeeds and produces exactly `grid_records`. -/
theorem mosaic_walk_eq {α : Type} [Field α] (image_width image_height
    n_vertical_tris n_horiz_tris : Nat) (image_data : List Nat)
    (half_triangle_width triangle_height : α)
    (hw : 1 ≤ image_width) (hh : 1 ≤ image_height) (hnv : 1 ≤ n_vertical_tris)
    (hnh : 1 ≤ n_horiz_tris)
    (hlen : image_width * image_height * 3 ≤ image_data.length) :
    mosaic_walk image_width image_height n_vertical_tris n_horiz_tris
      image_data half_triangle_width triangle_height =
    some (grid_records image_width image_height n_vertical_tris n_horiz_tris
      image_data half_triangle_width triangle_height) := by
  rw [mosaic_walk,
    walk_rows_eq image_width image_height n_vertical_tris n_horiz_tris
      image_data half_triangle_width triangle_height hw hh hnv hnh hlen]
  rw [grid_records]
  congr 1
  refine flatMap_congr_left fun j _ => ?_
  refine List.map_congr_left fun col _ => ?_
  simp

theorem grid_records_length {α : Type} [Field α] (image_width image_height
    n_vertical_tris n_horiz_tris : Nat) (image_data : List Nat)
    (half_triangle_width triangle_height : α) :
    (grid_records image_width image_height n_vertical_tris n_horiz_tris
      image_data half_triangle_width triangle_height).length =
      n_vertical_tris * (n_horiz_tris + 1) := by
  rw [grid_records, List.flatMap_def, List.length_flatten, List.map_map]
  have h1 : ∀ a ∈ List.range n_vertical_tris,
      (List.length ∘ fun row => (List.range (n_horiz_tris + 1)).map
        fun col => (⟨row, col, (col : α) * half_triangle_width,
          (row : α) * triangle_height, cell_points_up row col,
          cell_rgb image_width image_height n_vertical_tris n_horiz_tris
            image_data row col⟩ : TriangleRecord α)) a = n_horiz_tris + 1 :=
    fun a _ => by simp [Function.comp]
  rw [List.map_congr_left h1, List.map_const', List.length_range,
    List.sum_const_nat]

theorem grid_records_pairs {α : Type} [Field α] (image_width image_height
    n_vertical_tris n_horiz_tris : Nat) (image_data : List Nat)
    (half_triangle_width triangle_height : α) :
    (grid_records image_width image_height n_vertical_tris n_horiz_tris
      image_data half_triangle_width triangle_height).map
        (fun r => (r.row, r.col)) =
      (List.range n_vertical_tris).flatMap fun row =>
        (List.range (n_horiz_tris + 1)).map fun col => (row, col) := by
  rw [grid_records, List.map_flatMap]
  refine flatMap_congr_left fun j _ => ?_
  rw [List.map_map]
  rfl

/-- Success shape of the full pipeline under the PixelBuffer invariant and
a non-degenerate horizontal triangle count. -/
theorem run_pipeline_eq {α : Type} [Field α] (image_width image_height
    n_vertical_tris : Nat) (image_data : List Nat)
    (triangle_height sqrt_3 : α)
    (hw : 1 ≤ image_width) (hh : 1 ≤ image_height) (hnv : 1 ≤ n_vertical_tris)
    (hlen : image_data.length = image_width * image_height * 3)
    (hnh : 1 ≤ n_horiz_tris image_width image_height n_vertical_tris) :
    run_pipeline image_width image_data n_vertical_tris triangle_height
      sqrt_3 =
    Except.ok ⟨(n_horiz_tris image_width image_height n_vertical_tris : α) *
        (triangle_height / sqrt_3),
      (n_vertical_tris : α) * triangle_height,
      grid_records image_width image_height n_vertical_tris
        (n_horiz_tris image_width image_height n_vertical_tris) image_data
        (triangle_height / sqrt_3) triangle_height⟩ := by
  have hheight : image_data.length / (image_width * 3) = image_height := by
    rw [hlen, show image_width * image_height * 3 =
      image_width * 3 * image_height by ring]
    exact Nat.mul_div_cancel_left image_height (by omega)
  have hpos : 0 < image_data.length := by
    rw [hlen]
    have : 1 * 1 * 3 ≤ image_width * image_height * 3 :=
      Nat.mul_le_mul (Nat.mul_le_mul hw hh) (le_refl 3)
    omega
  have hne : image_data.isEmpty = false := by
    cases image_data with
    | nil => simp at hpos
    | cons a l => rfl
  rw [run_pipeline]
  simp only [hheight, hne, Bool.false_eq_true, if_false]
  rw [mosaic_walk_eq image_width image_height n_vertical_tris _ image_data
    (triangle_height / sqrt_3) triangle_height hw hh hnv hnh (by omega)]

/-! ## Claim C1: grid parameter calculation -/

/-- Claim C1: for positive `image_width`, `image_height`, `n_vertical`,
the computed `n_horiz_tris` equals `⌊(image_width * n_vertical / image_height)
· √3⌋`, the inner division being the truncating integer division the spec
describes; and for a square image with `n_vertical = 30` the result is
`51 = ⌊30√3⌋` (the spec's "approximately 52, 30·√3 rounded down"). -/
theorem C1_grid_parameter_calculator (image_width image_height
    n_vertical_tris : Nat) (hw : 0 < image_width) (hh : 0 < image_height)
    (hn : 0 < n_vertical_tris) :
    n_horiz_tris image_width image_height n_vertical_tris =
      Nat.floor ((((image_width * n_vertical_tris) / image_height : Nat) : ℝ) *
        Real.sqrt 3) ∧
    (image_width = image_height → n_vertical_tris = 30 →
      n_horiz_tris image_width image_height n_vertical_tris = 51 ∧
      (51 : Nat) = Nat.floor ((30 : ℝ) * Real.sqrt 3)) := by
  constructor
  · exact floor_mul_sqrt3_eq_floor _
  · intro hwh h30
    subst h30
    have hdiv : (image_width * 30) / image_height = 30 := by
      rw [← hwh]
      exact Nat.mul_div_cancel_left 30 hw
    have hval : n_horiz_tris image_width image_height 30 = floor_mul_sqrt3 30 := by
      rw [n_horiz_tris, hdiv]
    have h51 : floor_mul_sqrt3 30 = 51 := by decide
    refine ⟨by rw [hval, h51], ?_⟩
    have := floor_mul_sqrt3_eq_floor 30
    rw [h51] at this
    rw [this]
    norm_num

/-- Witness for C1 at a concrete square image (`w = h = 2`, `n = 30`). -/
theorem C1_witness :
    (n_horiz_tris 2 2 30 =
      Nat.floor ((((2 * 30) / 2 : Nat) : ℝ) * Real.sqrt 3)) ∧
    (2 = 2 → 30 = 30 → n_horiz_tris 2 2 30 = 51 ∧
      (51 : Nat) = Nat.floor ((30 : ℝ) * Real.sqrt 3)) :=
  C1_grid_parameter_calculator 2 2 30 (by decide) (by decide) (by decide)

/-! ## Claim C5: orientation parity -/

/-- Claim C5: `points_up = (row even) XOR (col even)`, and horizontally or
vertically adjacent cells have opposite orientation. -/
theorem C5_points_up_parity (row col : Nat) :
    cell_points_up row col = ((row % 2 == 0) != (col % 2 == 0)) ∧
    cell_points_up row (col + 1) = !cell_points_up row col ∧
    cell_points_up (row + 1) col = !cell_points_up row col := by
  have h1 : ∀ n : Nat, n &&& 1 = n % 2 := fun n => Nat.and_one_is_mod n
  refine ⟨by simp only [cell_points_up, h1], ?_, ?_⟩ <;>
    simp only [cell_points_up, h1] <;>
    rcases Nat.mod_two_eq_zero_or_one row with h | h <;>
    rcases Nat.mod_two_eq_zero_or_one col with h2 | h2 <;>
    simp [h, h2, Nat.add_mod]

/-! ## Claim C2: totality of the walk -/

theorem floor_mul_sqrt3_pos (k : Nat) (hk : 1 ≤ k) : 1 ≤ floor_mul_sqrt3 k := by
  by_contra hcon
  have h0 : floor_mul_sqrt3 k = 0 := by omega
  have hlt := lt_floor_mul_sqrt3_succ_sq k
  rw [h0] at hlt
  nlinarith [hlt, hk]

/-- Claim C2 (amended): with a valid non-empty pixel buffer, positive
dimensions and `n_vertical`, and additionally a wide-enough image
(`image_height ≤ image_width * n_vertical`, so that the derived
`n_horiz_tris` is at least 1), the pipeline's grid walk completes and the
run succeeds; and an empty pixel buffer is always rejected with
`EmptyImage` before the walk (whatever the other parameters, including
ones on which the walk itself would panic). -/
theorem C2_walk_totality (image_width image_height n_vertical_tris : Nat)
    (image_data : List Nat) (triangle_height sqrt_3 : ℚ)
    (hw : 1 ≤ image_width) (hh : 1 ≤ image_height) (hnv : 1 ≤ n_vertical_tris)
    (hlen : image_data.length = image_width * image_height * 3)
    (hwide : image_height ≤ image_width * n_vertical_tris) :
    (∃ doc, run_pipeline image_width image_data n_vertical_tris
      triangle_height sqrt_3 = Except.ok doc) ∧
    (∀ (w n : Nat) (th s3 : ℚ),
      run_pipeline w [] n th s3 = Except.error MainError.emptyImage) := by
  constructor
  · have hk : 1 ≤ (image_width * n_vertical_tris) / image_height :=
      (Nat.one_le_div_iff (by omega)).mpr hwide
    have hnh : 1 ≤ n_horiz_tris image_width image_height n_vertical_tris :=
      floor_mul_sqrt3_pos _ hk
    exact ⟨_, run_pipeline_eq image_width image_height n_vertical_tris
      image_data triangle_height sqrt_3 hw hh hnv hlen hnh⟩
  · intro w n th s3
    rfl

/-- Witness for C2 at the 2×2 test image. -/
theorem C2_witness :
    (∃ doc, run_pipeline (α := ℚ) 2 test_image_2x2 2 1 2 = Except.ok doc) ∧
    (∀ (w n : Nat) (th s3 : ℚ),
      run_pipeline w [] n th s3 = Except.error MainError.emptyImage) :=
  C2_walk_totality 2 2 2 test_image_2x2 1 2 (by decide) (by decide) (by decide)
    (by decide) (by decide)

/-- C2 counterexample: a valid non-empty 1×2 pixel buffer with all
parameters positive (width 1, derived height 2, `n_vertical` 1, height 1)
on which the claim's walk does not complete: the derived `n_horiz_tris`
is 0 and the column loop's division panics, so the run fails with a walk
failure rather than completing. -/
theorem C2_walk_panic_counterexample :
    ([0, 0, 0, 0, 0, 0] : List Nat) ≠ [] ∧
    ([0, 0, 0, 0, 0, 0] : List Nat).length = 1 * 2 * 3 ∧
    n_horiz_tris 1 2 1 = 0 ∧
    run_pipeline (α := ℝ) 1 [0, 0, 0, 0, 0, 0] 1 1 (Real.sqrt 3) =
      Except.error MainError.walkFailure :=
  ⟨by decide, by decide, by decide, rfl⟩

/-! ## Claim C4: record count and ordering -/

/-- Claim C4: for a grid of `n_vertical` rows and `n_horizontal` columns
(positive, with a valid pixel buffer for the sampling the walker performs
on the way), the walk produces exactly `n_vertical * (n_horizontal + 1)`
records, ordered row-major: rows top to bottom, and within each row
columns left to right. -/
theorem C4_record_count_and_order {α : Type} [Field α] (image_width
    image_height n_vertical_tris n_horiz_tris : Nat) (image_data : List Nat)
    (half_triangle_width triangle_height : α)
    (hw : 1 ≤ image_width) (hh : 1 ≤ image_height) (hnv : 1 ≤ n_vertical_tris)
    (hnh : 1 ≤ n_horiz_tris)
    (hlen : image_data.length = image_width * image_height * 3) :
    ∃ recs, mosaic_walk image_width image_height n_vertical_tris n_horiz_tris
        image_data half_triangle_width triangle_height = some recs ∧
      recs.length = n_vertical_tris * (n_horiz_tris + 1) ∧
      recs.map (fun r => (r.row, r.col)) =
        (List.range n_vertical_tris).flatMap fun row =>
          (List.range (n_horiz_tris + 1)).map fun col => (row, col) :=
  ⟨_, mosaic_walk_eq image_width image_height n_vertical_tris n_horiz_tris
      image_data half_triangle_width triangle_height hw hh hnv hnh
      (by omega),
    grid_records_length image_width image_height n_vertical_tris n_horiz_tris
      image_data half_triangle_width triangle_height,
    grid_records_pairs image_width image_height n_vertical_tris n_horiz_tris
      image_data half_triangle_width triangle_height⟩

/-- Witness for C4 on a 1×1 image with a 1×1 grid. -/
theorem C4_witness :
    ∃ recs, mosaic_walk (α := ℚ) 1 1 1 1 [0, 0, 0] 1 1 = some recs ∧
      recs.length = 1 * (1 + 1) ∧
      recs.map (fun r => (r.row, r.col)) =
        (List.range 1).flatMap fun row =>
          (List.range (1 + 1)).map fun col => (row, col) :=
  C4_record_count_and_order 1 1 1 1 [0, 0, 0] 1 1 (by decide) (by decide)
    (by decide) (by decide) (by decide)

/-! ## Claim C7: sampler clamping and in-bounds reads -/

/-- Claim C7: for every cell the walker's source coordinates are
`img_x = min(col * image_width / n_horizontal, image_width - 1)` and
`img_y = min(row * image_height / n_vertical, image_height - 1)`, they
never exceed `width - 1` / `height - 1`, and the flat subpixel index
`(img_x + img_y * width) * 3 + 2` stays inside the pixel buffer, so the
cell's sample succeeds with the three in-bounds bytes. -/
theorem C7_sampler_clamping (image_width image_height n_vertical_tris
    n_horiz_tris row col : Nat) (image_data : List Nat)
    (hw : 1 ≤ image_width) (hh : 1 ≤ image_height) (hnv : 1 ≤ n_vertical_tris)
    (hnh : 1 ≤ n_horiz_tris)
    (hlen : image_data.length = image_width * image_height * 3) :
    walker_img_x image_width n_horiz_tris col =
      min ((col * image_width) / n_horiz_tris) (image_width - 1) ∧
    walker_img_y image_height n_vertical_tris row =
      min ((row * image_height) / n_vertical_tris) (image_height - 1) ∧
    walker_img_x image_width n_horiz_tris col ≤ image_width - 1 ∧
    walker_img_y image_height n_vertical_tris row ≤ image_height - 1 ∧
    (walker_img_x image_width n_horiz_tris col +
      walker_img_y image_height n_vertical_tris row * image_width) * 3 + 2 <
      image_data.length ∧
    sample_cell image_width image_height n_vertical_tris n_horiz_tris
      image_data row col =
      some (cell_rgb image_width image_height n_vertical_tris n_horiz_tris
        image_data row col) := by
  refine ⟨rfl, rfl, Nat.min_le_right _ _, Nat.min_le_right _ _, ?_, ?_⟩
  · rw [hlen]
    exact idx_bound image_width image_height n_vertical_tris n_horiz_tris
      row col hw hh
  · exact sample_cell_eq image_width image_height n_vertical_tris n_horiz_tris
      image_data row col hw hh hnv hnh (by omega)

/-- Witness for C7 at the last row and the trailing column of the 2×2
test image (`row = n_vertical - 1 = 1`, `col = n_horizontal = 3`). -/
theorem C7_witness :
    walker_img_x 2 3 3 = min ((3 * 2) / 3) (2 - 1) ∧
    walker_img_y 2 2 1 = min ((1 * 2) / 2) (2 - 1) ∧
    walker_img_x 2 3 3 ≤ 2 - 1 ∧
    walker_img_y 2 2 1 ≤ 2 - 1 ∧
    (walker_img_x 2 3 3 + walker_img_y 2 2 1 * 2) * 3 + 2 <
      test_image_2x2.length ∧
    sample_cell 2 2 2 3 test_image_2x2 1 3 =
      some (cell_rgb 2 2 2 3 test_image_2x2 1 3) :=
  C7_sampler_clamping 2 2 2 3 1 3 test_image_2x2 (by decide) (by decide)
    (by decide) (by decide) (by decide)

/-! ## Claim C8: triangle geometry -/

/-- Claim C8: the emitted path for an up-pointing triangle is move to
`(x,y)`, line by `(-h, +t)`, line by `(+2h, 0)`, close, with absolute
vertices `(x,y), (x-h,y+t), (x+h,y+t)`; a down-pointing triangle is move
to `(x,y+t)`, line by `(-h,-t)`, line by `(+2h, 0)`, close, with absolute
vertices `(x,y+t), (x-h,y), (x+h,y)`. -/
theorem abs_vertices_triangle_up {α : Type} [Field α] (x y h t : α) :
    abs_vertices (triangle_at x y h t true) =
      [(x, y), (x - h, y + t), (x + h, y + t)] := by
  simp [triangle_at, abs_vertices, path_points, Prod.ext_iff,
    sub_eq_add_neg]
  ring_nf

theorem abs_vertices_triangle_down {α : Type} [Field α] (x y h t : α) :
    abs_vertices (triangle_at x y h t false) =
      [(x, y + t), (x - h, y), (x + h, y)] := by
  simp [triangle_at, abs_vertices, path_points, Prod.ext_iff,
    sub_eq_add_neg]
  ring_nf

/-- Both base corners of a triangle lie at horizontal distance
`half_width` from its origin `x`, whichever way it points. -/
theorem triangle_vertex_xs {α : Type} [Field α] (x y h t : α) (up : Bool) :
    (x - h) ∈ (abs_vertices (triangle_at x y h t up)).map Prod.fst ∧
    (x + h) ∈ (abs_vertices (triangle_at x y h t up)).map Prod.fst := by
  cases up <;>
    simp [abs_vertices_triangle_up, abs_vertices_triangle_down]

theorem C8_triangle_geometry {α : Type} [Field α] (x y h t : α) :
    triangle_at x y h t true =
      [PathOp.moveTo x y, PathOp.lineBy (-h) t, PathOp.lineBy (2 * h) 0,
        PathOp.close] ∧
    abs_vertices (triangle_at x y h t true) =
      [(x, y), (x - h, y + t), (x + h, y + t)] ∧
    triangle_at x y h t false =
      [PathOp.moveTo x (y + t), PathOp.lineBy (-h) (-t),
        PathOp.lineBy (2 * h) 0, PathOp.close] ∧
    abs_vertices (triangle_at x y h t false) =
      [(x, y + t), (x - h, y), (x + h, y)] :=
  ⟨by simp [triangle_at, mul_comm], abs_vertices_triangle_up x y h t,
    by simp [triangle_at, mul_comm], abs_vertices_triangle_down x y h t⟩

/-! ## Claim C3: end-to-end scenario on the 2×2 image -/

/-- Claim C3 (amended): on the 2×2 RGB test image with `n_vertical = 2`
and `triangle_height = 1`, the pipeline yields `n_horizontal = 3`, a
document of exactly `2 * (3 + 1) = 8` records with canvas size
`(3 * 1/√3, 2 * 1)`, and a first record at cell `(0,0)` that samples
pixel `(0,0)` and is filled red — but with `points_up = false` (cell
`(0,0)` has even row and even column, so the parity XOR is false). -/
theorem C3_end_to_end :
    n_horiz_tris 2 2 2 = 3 ∧
    (run_pipeline (α := ℝ) 2 test_image_2x2 2 1 (Real.sqrt 3)).toOption.map
      (fun d => d.records.length) = some (2 * (3 + 1)) ∧
    (run_pipeline (α := ℝ) 2 test_image_2x2 2 1 (Real.sqrt 3)).toOption.map
      (fun d => (d.canvas_width, d.canvas_height)) =
      some (3 * (1 / Real.sqrt 3), 2 * 1) ∧
    ((run_pipeline (α := ℝ) 2 test_image_2x2 2 1 (Real.sqrt 3)).toOption.bind
      (fun d => d.records.head?)).map
      (fun r => (r.points_up, r.row, r.col, r.rgb)) =
      some (false, 0, 0, (255, 0, 0)) ∧
    walker_img_x 2 3 0 = 0 ∧ walker_img_y 2 2 0 = 0 ∧
    encode_color 255 0 0 = "#FF0000" := by
  have h3 : n_horiz_tris 2 2 2 = 3 := by decide
  have hrun := run_pipeline_eq (α := ℝ) 2 2 2 test_image_2x2 1 (Real.sqrt 3)
    (by decide) (by decide) (by decide) (by decide) (by decide)
  rw [h3] at hrun
  refine ⟨h3, ?_, ?_, ?_, by decide, by decide, by decide⟩
  · rw [hrun]
    simp [Except.toOption, grid_records_length]
  · rw [hrun]
    simp [Except.toOption]
  · rw [hrun]
    simp only [Except.toOption, grid_records,
      show List.range 2 = [0, 1] from rfl,
      show List.range (3 + 1) = [0, 1, 2, 3] from rfl, List.flatMap_cons,
      List.flatMap_nil, List.map_cons, List.map_nil, List.cons_append,
      List.head?_cons, Option.bind_some, Option.map_some]
    refine congrArg some ?_
    refine Prod.ext (by decide) (Prod.ext (by decide) (Prod.ext (by decide)
      (by decide)))

/-- C3 counterexample: the first record of the end-to-end scenario has
`points_up = false`, not `true` as claimed. -/
theorem C3_first_record_counterexample :
    ((run_pipeline (α := ℝ) 2 test_image_2x2 2 1 (Real.sqrt 3)).toOption.bind
      (fun d => d.records.head?)).map (fun r => r.points_up) = some false ∧
    some false ≠ some true := by
  have h3 : n_horiz_tris 2 2 2 = 3 := by decide
  have hrun := run_pipeline_eq (α := ℝ) 2 2 2 test_image_2x2 1 (Real.sqrt 3)
    (by decide) (by decide) (by decide) (by decide) (by decide)
  rw [h3] at hrun
  refine ⟨?_, by decide⟩
  rw [hrun]
  simp only [Except.toOption, grid_records,
    show List.range 2 = [0, 1] from rfl,
    show List.range (3 + 1) = [0, 1, 2, 3] from rfl, List.flatMap_cons,
    List.flatMap_nil, List.map_cons, List.map_nil, List.cons_append,
    List.head?_cons, Option.bind_some, Option.map_some]
  decide

/-! ## Claim C6: numeric argument validation -/

/-- Claim C6 (amended): if the vertical-triangle-count argument or the
triangle-height argument fails to parse (non-numeric, including a
negative count, which `usize` parsing rejects), the program fails with
`InvalidNumericArgument` whatever the file system would have answered —
i.e. before any file I/O.  (Non-positive values that do parse, such as a
count of `0` or a height of `-1.0`, are accepted, not rejected: see the
counterexample.) -/
theorem C6_invalid_numeric_before_io {α : Type} [Field α]
    (image_path n_vert_arg height_arg : String) (rest : List String)
    (file_result : Except MainError (Nat × List Nat)) (sqrt_3 : α)
    (h : parse_usize n_vert_arg = none ∨ parse_decimal height_arg = none) :
    main_model (image_path :: n_vert_arg :: height_arg :: rest) file_result
      sqrt_3 = Except.error MainError.invalidNumericArgument := by
  rcases h with h | h
  · simp [main_model, parse_args, h]
  · cases hn : parse_usize n_vert_arg with
    | none => simp [main_model, parse_args, hn]
    | some n => simp [main_model, parse_args, hn, h]

/-- Witness for C6: a non-numeric count and a non-numeric height are both
rejected without consulting the file, whose result is left an error in
one case and a success in the other. -/
theorem C6_witness :
    main_model (α := ℚ) (("image.png") :: ("abc") :: ("0.1") :: [])
      (Except.ok (2, test_image_2x2)) 1 =
      Except.error MainError.invalidNumericArgument ∧
    main_model (α := ℚ) (("image.png") :: ("30") :: ("xyz") :: [])
      (Except.error MainError.loadFailure) 1 =
      Except.error MainError.invalidNumericArgument :=
  ⟨C6_invalid_numeric_before_io ("image.png") ("abc") ("0.1") []
      (Except.ok (2, test_image_2x2)) 1 (Or.inl (by decide)),
    C6_invalid_numeric_before_io ("image.png") ("30") ("xyz") []
      (Except.error MainError.loadFailure) 1 (Or.inr (by decide))⟩

/-- C6 counterexample: the non-positive height argument `-1.0` parses
successfully and the program does not fail with
`InvalidNumericArgument` — the run proceeds (and here succeeds). -/
theorem C6_nonpositive_accepted_counterexample :
    parse_decimal ("-1.0") = some (-1) ∧
    main_model (α := ℝ) (("image.png") :: ("2") :: ("-1.0") :: [])
      (Except.ok (2, test_image_2x2)) (Real.sqrt 3) ≠
      Except.error MainError.invalidNumericArgument := by
  have hp : parse_decimal ("-1.0") = some (-1) := by
    simp [parse_decimal, digits_to_nat]
  refine ⟨hp, ?_⟩
  have hn : parse_usize ("2") = some 2 := by decide
  have hm : main_model (α := ℝ) (("image.png") :: ("2") :: ("-1.0") :: [])
      (Except.ok (2, test_image_2x2)) (Real.sqrt 3) =
      run_pipeline 2 test_image_2x2 2 (((-1 : ℚ) : ℝ)) (Real.sqrt 3) := by
    simp [main_model, parse_args, hn, hp]
  rw [hm, run_pipeline_eq 2 2 2 test_image_2x2 _ _ (by decide) (by decide)
    (by decide) (by decide) (by decide)]
  simp

/-! ## Claim C9: PNG normalization -/

theorem chunks_exact_nil (k : Nat) : chunks_exact k [] = [] := by
  rw [chunks_exact]
  rw [dif_neg]
  simp
  omega

theorem chunks_exact_cons (k : Nat) (chunk restL : List Nat)
    (hk : chunk.length = k) (hkpos : 0 < k) :
    chunks_exact k (chunk ++ restL) = chunk :: chunks_exact k restL := by
  subst hk
  rw [chunks_exact, dif_pos ⟨hkpos, by simp⟩, List.take_left, List.drop_left]

theorem rgba_normalize (pixels : List (Nat × Nat × Nat × Nat)) :
    (chunks_exact 4 (rgba_bytes pixels)).flatMap
      (fun px => [px.getD 0 0, px.getD 1 0, px.getD 2 0]) =
      pixels.flatMap fun px => [px.1, px.2.1, px.2.2.1] := by
  induction pixels with
  | nil => simp [rgba_bytes, chunks_exact_nil]
  | cons p ps ih =>
    rw [show rgba_bytes (p :: ps) =
      [p.1, p.2.1, p.2.2.1, p.2.2.2] ++ rgba_bytes ps from by
        simp [rgba_bytes]]
    rw [chunks_exact_cons 4 _ _ (by simp) (by omega)]
    simpa using ih

theorem gray_alpha_normalize (pixels : List (Nat × Nat)) :
    (chunks_exact 2 (gray_alpha_bytes pixels)).flatMap
      (fun px => [px.getD 0 0, px.getD 0 0, px.getD 0 0]) =
      pixels.flatMap fun px => [px.1, px.1, px.1] := by
  induction pixels with
  | nil => simp [gray_alpha_bytes, chunks_exact_nil]
  | cons p ps ih =>
    rw [show gray_alpha_bytes (p :: ps) =
      [p.1, p.2] ++ gray_alpha_bytes ps from by simp [gray_alpha_bytes]]
    rw [chunks_exact_cons 2 _ _ (by simp) (by omega)]
    simpa using ih

/-- Claim C9: the decoder accepts exactly 8-bit RGB, RGBA, grayscale and
grayscale+alpha frames, normalizing to 24-bit RGB (RGB passed through,
alpha dropped, gray replicated into all three channels), and fails for
any other bit depth (`UnsupportedBitDepth`) or color encoding
(`UnsupportedColorType`, i.e. indexed). -/
theorem C9_png_decoder :
    (∀ buf, load_png_rgb BitDepth.eight ColorType.rgb buf = Except.ok buf) ∧
    (∀ pixels : List (Nat × Nat × Nat × Nat),
      load_png_rgb BitDepth.eight ColorType.rgba (rgba_bytes pixels) =
        Except.ok (pixels.flatMap fun px => [px.1, px.2.1, px.2.2.1])) ∧
    (∀ buf, load_png_rgb BitDepth.eight ColorType.grayscale buf =
      Except.ok (buf.flatMap fun px => [px, px, px])) ∧
    (∀ pixels : List (Nat × Nat),
      load_png_rgb BitDepth.eight ColorType.grayscaleAlpha
        (gray_alpha_bytes pixels) =
        Except.ok (pixels.flatMap fun px => [px.1, px.1, px.1])) ∧
    (∀ (bd : BitDepth) (ct : ColorType) (buf : List Nat),
      bd ≠ BitDepth.eight →
      load_png_rgb bd ct buf = Except.error PngError.unsupportedBitDepth) ∧
    (∀ buf, load_png_rgb BitDepth.eight ColorType.indexed buf =
      Except.error PngError.unsupportedColorType) ∧
    (∀ (bd : BitDepth) (ct : ColorType) (buf : List Nat),
      (∃ out, load_png_rgb bd ct buf = Except.ok out) ↔
        (bd = BitDepth.eight ∧ ct ≠ ColorType.indexed)) := by
  refine ⟨fun buf => rfl, ?_, fun buf => rfl, ?_, ?_, fun buf => rfl, ?_⟩
  · intro pixels
    simp only [load_png_rgb]
    rw [if_neg (by decide)]
    rw [rgba_normalize]
  · intro pixels
    simp only [load_png_rgb]
    rw [if_neg (by decide)]
    rw [gray_alpha_normalize]
  · intro bd ct buf h
    rw [load_png_rgb.eq_def, if_pos h]
  · intro bd ct buf
    cases bd <;> cases ct <;> simp [load_png_rgb]

/-- Witness for C9: a 16-bit frame is rejected with
`UnsupportedBitDepth`. -/
theorem C9_witness :
    load_png_rgb BitDepth.sixteen ColorType.rgb [0, 0, 0] =
      Except.error PngError.unsupportedBitDepth :=
  C9_png_decoder.2.2.2.2.1 BitDepth.sixteen ColorType.rgb [0, 0, 0]
    (by decide)

/-! ## Claim C10: emitted geometry exceeds the declared canvas -/

/-- Claim C10: on any successful walk (positive parameters, valid buffer,
positive half-base width), every column-0 record's triangle has a vertex
at `x = -half_base_width < 0` and every column-`n_horizontal` record's
triangle has a vertex at `x = (n_horizontal + 1) * half_base_width`,
beyond the declared viewbox width `n_horizontal * half_base_width`; both
kinds of record exist, so the first and last columns of triangles extend
outside the viewbox. -/
theorem C10_geometry_exceeds_viewbox {α : Type} [LinearOrderedField α]
    (image_width image_height n_vertical_tris n_horiz_tris : Nat)
    (image_data : List Nat) (half_triangle_width triangle_height : α)
    (hw : 1 ≤ image_width) (hh : 1 ≤ image_height) (hnv : 1 ≤ n_vertical_tris)
    (hnh : 1 ≤ n_horiz_tris)
    (hlen : image_data.length = image_width * image_height * 3)
    (hhalf : 0 < half_triangle_width) :
    ∃ recs, mosaic_walk image_width image_height n_vertical_tris n_horiz_tris
        image_data half_triangle_width triangle_height = some recs ∧
      (∃ r ∈ recs, r.col = 0) ∧
      (∃ r ∈ recs, r.col = n_horiz_tris) ∧
      (∀ r ∈ recs, r.col = 0 →
        -half_triangle_width ∈ (abs_vertices (triangle_at r.x r.y
          half_triangle_width triangle_height r.points_up)).map Prod.fst ∧
        -half_triangle_width < 0) ∧
      (∀ r ∈ recs, r.col = n_horiz_tris →
        ((n_horiz_tris : α) + 1) * half_triangle_width ∈
          (abs_vertices (triangle_at r.x r.y half_triangle_width
            triangle_height r.points_up)).map Prod.fst ∧
        (n_horiz_tris : α) * half_triangle_width <
          ((n_horiz_tris : α) + 1) * half_triangle_width) := by
  have hmem0 : (⟨0, 0, ((0 : Nat) : α) * half_triangle_width,
      ((0 : Nat) : α) * triangle_height, cell_points_up 0 0,
      cell_rgb image_width image_height n_vertical_tris n_horiz_tris
        image_data 0 0⟩ : TriangleRecord α) ∈
      grid_records image_width image_height n_vertical_tris n_horiz_tris
        image_data half_triangle_width triangle_height := by
    simp only [grid_records, List.mem_flatMap, List.mem_map, List.mem_range]
    exact ⟨0, by omega, 0, by omega, rfl⟩
  have hmemN : (⟨0, n_horiz_tris, ((n_horiz_tris : Nat) : α) *
      half_triangle_width, ((0 : Nat) : α) * triangle_height,
      cell_points_up 0 n_horiz_tris,
      cell_rgb image_width image_height n_vertical_tris n_horiz_tris
        image_data 0 n_horiz_tris⟩ : TriangleRecord α) ∈
      grid_records image_width image_height n_vertical_tris n_horiz_tris
        image_data half_triangle_width triangle_height := by
    simp only [grid_records, List.mem_flatMap, List.mem_map, List.mem_range]
    exact ⟨0, by omega, n_horiz_tris, by omega, rfl⟩
  refine ⟨_, mosaic_walk_eq image_width image_height n_vertical_tris
    n_horiz_tris image_data half_triangle_width triangle_height hw hh hnv hnh
    (by omega), ⟨_, hmem0, rfl⟩, ⟨_, hmemN, rfl⟩, ?_, ?_⟩
  · intro r hr hc
    simp only [grid_records, List.mem_flatMap, List.mem_map, List.mem_range]
      at hr
    obtain ⟨row, _, col, _, rfl⟩ := hr
    simp only at hc
    subst hc
    have hmem := (triangle_vertex_xs ((0 : Nat) : α) ((row : α) *
      triangle_height) half_triangle_width triangle_height
      (cell_points_up row 0)).1
    constructor
    · have hx : ((0 : Nat) : α) * half_triangle_width - half_triangle_width =
        -half_triangle_width := by push_cast; ring
      have hmem' := (triangle_vertex_xs ((0 : Nat) * half_triangle_width)
        ((row : α) * triangle_height) half_triangle_width triangle_height
        (cell_points_up row 0)).1
      rwa [hx] at hmem'
    · linarith
  · intro r hr hc
    simp only [grid_records, List.mem_flatMap, List.mem_map, List.mem_range]
      at hr
    obtain ⟨row, _, col, _, rfl⟩ := hr
    simp only at hc
    subst hc
    constructor
    · have hx : (col : α) * half_triangle_width + half_triangle_width =
        ((col : α) + 1) * half_triangle_width := by ring
      have hmem' := (triangle_vertex_xs ((col : Nat) * half_triangle_width)
        ((row : α) * triangle_height) half_triangle_width triangle_height
        (cell_points_up row col)).2
      rwa [hx] at hmem'
    · nlinarith [hhalf]

/-- Witness for C10 on a 1×1 image with a 1×1 grid and unit geometry. -/
theorem C10_witness :
    ∃ recs, mosaic_walk (α := ℚ) 1 1 1 1 [0, 0, 0] 1 1 = some recs ∧
      (∃ r ∈ recs, r.col = 0) ∧
      (∃ r ∈ recs, r.col = 1) ∧
      (∀ r ∈ recs, r.col = 0 →
        -1 ∈ (abs_vertices (triangle_at r.x r.y 1 1 r.points_up)).map
          Prod.fst ∧ (-1 : ℚ) < 0) ∧
      (∀ r ∈ recs, r.col = 1 →
        ((1 : Nat) + 1 : ℚ) * 1 ∈
          (abs_vertices (triangle_at r.x r.y 1 1 r.points_up)).map Prod.fst ∧
        ((1 : Nat) : ℚ) * 1 < ((1 : Nat) + 1 : ℚ) * 1) := by
  have h := C10_geometry_exceeds_viewbox (α := ℚ) 1 1 1 1 [0, 0, 0] 1 1
    (by decide) (by decide) (by decide) (by decide) (by decide) (by decide)
  simpa using h

end TriTile
